import Mathlib

/-! Verification of the core logic of a browser 3D art gallery, shallowly embedded
from its JavaScript source: the player controller (yaw-only mouse look,
flag-driven movement integration, pointer-lock lifecycle), the artwork
registry (circular placement, hover highlight) and the raycast-based
hover/click resolution.  Real-number arithmetic stands in for JavaScript
floats, as usual for a shallow embedding. -/

namespace Gallery

noncomputable section

/-- Shallow embedding of `THREE.Vector3`: a 3D vector of reals. -/
@[ext]
structure Vec3 where
  x : ℝ
  y : ℝ
  z : ℝ

namespace Vec3

/-- Componentwise addition (`Vector3.add`). -/
def add (a b : Vec3) : Vec3 := ⟨a.x + b.x, a.y + b.y, a.z + b.z⟩

/-- Componentwise subtraction (`Vector3.sub`). -/
def sub (a b : Vec3) : Vec3 := ⟨a.x - b.x, a.y - b.y, a.z - b.z⟩

/-- Scaling by a scalar (`Vector3.multiplyScalar`). -/
def smul (a : Vec3) (c : ℝ) : Vec3 := ⟨a.x * c, a.y * c, a.z * c⟩

/-- Squared length (`Vector3.lengthSq`). -/
def normSq (a : Vec3) : ℝ := a.x * a.x + a.y * a.y + a.z * a.z

/-- Length (`Vector3.length`). -/
def length (a : Vec3) : ℝ := Real.sqrt a.normSq

open Classical in
/-- `Vector3.normalize`: divide by the length, or by `1` when the length is
zero (three.js writes `divideScalar(this.length() || 1)`). -/
def normalize (a : Vec3) : Vec3 :=
  a.smul (1 / (if a.length = 0 then 1 else a.length))

/-- The zero vector (`new THREE.Vector3()`). -/
def zero : Vec3 := ⟨0, 0, 0⟩

instance : Add Vec3 := ⟨Vec3.add⟩

instance : Sub Vec3 := ⟨Vec3.sub⟩

instance : Neg Vec3 := ⟨fun a => ⟨-a.x, -a.y, -a.z⟩⟩

end Vec3

/-- Observable state of `PlayerController`: camera position, accumulated yaw,
the four movement flags, the pointer-lock flag, and the two tuning constants
set in the constructor (`moveSpeed = 0.1`, `rotationSpeed = 0.002`). -/
structure PlayerState where
  position : Vec3
  yaw : ℝ
  moveForward : Bool
  moveBackward : Bool
  moveLeft : Bool
  moveRight : Bool
  isLocked : Bool
  moveSpeed : ℝ
  rotationSpeed : ℝ

/-- The state built by the `PlayerController` constructor: camera at
`(0, 1.6, 5)`, all flags clear, unlocked, `moveSpeed = 0.1`,
`rotationSpeed = 0.002`.  The initially-undefined `this.yaw` reads as `0`
through the `(this.yaw || 0)` guards, so it is modelled as `0`. -/
def initPlayer : PlayerState :=
  { position := ⟨0, 1.6, 5⟩
    yaw := 0
    moveForward := false
    moveBackward := false
    moveLeft := false
    moveRight := false
    isLocked := false
    moveSpeed := 0.1
    rotationSpeed := 0.002 }

/-- The forward vector computed in `PlayerController.update`:
`new Vector3(sin(yaw), 0, cos(yaw)).normalize()`. -/
def forwardVec (yaw : ℝ) : Vec3 :=
  Vec3.normalize ⟨Real.sin yaw, 0, Real.cos yaw⟩

/-- The right vector computed in `PlayerController.update`:
`new Vector3(sin(yaw + PI/2), 0, cos(yaw + PI/2)).normalize()`. -/
def rightVec (yaw : ℝ) : Vec3 :=
  Vec3.normalize ⟨Real.sin (yaw + Real.pi / 2), 0, Real.cos (yaw + Real.pi / 2)⟩

/-- The raw velocity accumulated in `PlayerController.update` before
normalization: start from zero, add `forward` if `moveForward`, subtract it
if `moveBackward`, subtract `right` if `moveLeft`, add `right` if
`moveRight` — in exactly that order. -/
def rawVelocity (s : PlayerState) : Vec3 :=
  let v0 := Vec3.zero
  let v1 := if s.moveForward then v0 + forwardVec s.yaw else v0
  let v2 := if s.moveBackward then v1 - forwardVec s.yaw else v1
  let v3 := if s.moveLeft then v2 - rightVec s.yaw else v2
  let v4 := if s.moveRight then v3 + rightVec s.yaw else v3
  v4

/-- `PlayerController.update(delta)`: early return unless locked; otherwise
accumulate the raw velocity and, when its squared length is positive,
normalize it, scale it by `moveSpeed` and add it to the camera position.
The frame delta is accepted but never used by the source (movement is
framerate-dependent), so it is unused here as well. -/
def update (s : PlayerState) (_delta : ℝ) : PlayerState :=
  if s.isLocked then
    let v := rawVelocity s
    if 0 < v.normSq then
      { s with position := s.position + (v.normalize).smul s.moveSpeed }
    else s
  else s

/-- `PlayerController.onMouseMove`: ignored unless locked; otherwise
`yaw := yaw - movementX * rotationSpeed` (the camera look-target is then
recomputed from the yaw, which this state model derives rather than
stores). -/
def onMouseMove (s : PlayerState) (movementX : ℝ) : PlayerState :=
  if s.isLocked then
    { s with yaw := s.yaw - movementX * s.rotationSpeed }
  else s

/-- The physical key identifiers the controller reacts to
(`event.code` values). -/
inductive KeyCode where
  | keyW
  | arrowUp
  | keyS
  | arrowDown
  | keyA
  | arrowLeft
  | keyD
  | arrowRight
  | escape
  | other

/-- `PlayerController.onKeyDown`: note the swapped bindings in the source —
`KeyA`/`ArrowLeft` set `moveRight` and `KeyD`/`ArrowRight` set `moveLeft`.
`Escape` requests `unlock()`; its eventual effect (clearing `isLocked`) is
modelled synchronously. -/
def onKeyDown (s : PlayerState) (k : KeyCode) : PlayerState :=
  match k with
  | KeyCode.keyW | KeyCode.arrowUp => { s with moveForward := true }
  | KeyCode.keyS | KeyCode.arrowDown => { s with moveBackward := true }
  | KeyCode.keyA | KeyCode.arrowLeft => { s with moveRight := true }
  | KeyCode.keyD | KeyCode.arrowRight => { s with moveLeft := true }
  | KeyCode.escape => { s with isLocked := false }
  | KeyCode.other => s

/-- `PlayerController.onKeyUp`: clears the flag for the released key, with
the same swapped left/right bindings as `onKeyDown`. -/
def onKeyUp (s : PlayerState) (k : KeyCode) : PlayerState :=
  match k with
  | KeyCode.keyW | KeyCode.arrowUp => { s with moveForward := false }
  | KeyCode.keyS | KeyCode.arrowDown => { s with moveBackward := false }
  | KeyCode.keyA | KeyCode.arrowLeft => { s with moveRight := false }
  | KeyCode.keyD | KeyCode.arrowRight => { s with moveLeft := false }
  | KeyCode.escape | KeyCode.other => s

/-- Outcome of the deferred result returned by `PlayerController.lock`. -/
inductive LockOutcome where
  | resolved
  | rejected (msg : String)

/-- `PlayerController.lock()`, resolved to its eventual outcome: when the
environment exposes a pointer-capture request (after the vendor-prefix
fallback chain), the deferred result resolves on the confirmation event and
`isLocked` becomes true; when no such API exists, it rejects with
an error carrying the message Pointer Lock API not supported and touches no state. -/
def lock (s : PlayerState) (apiAvailable : Bool) : LockOutcome × PlayerState :=
  if apiAvailable then
    (LockOutcome.resolved, { s with isLocked := true })
  else
    (LockOutcome.rejected "Pointer Lock API not supported", s)

/-- `PlayerController.unlock()`, resolved to its eventual effect: whether the
release API exists (confirmation path) or not (immediate path), `isLocked`
ends up false and nothing else changes. -/
def unlock (s : PlayerState) : PlayerState :=
  { s with isLocked := false }

/-- Movement-coefficient of the forward vector in the accumulated raw
velocity: `+1` for `moveForward`, `-1` for `moveBackward`. -/
def coefF (s : PlayerState) : ℝ :=
  (if s.moveForward then 1 else 0) - (if s.moveBackward then 1 else 0)

/-- Movement-coefficient of the right vector in the accumulated raw
velocity: `+1` for `moveRight`, `-1` for `moveLeft` (as `update` is written in the source: `moveLeft` subtracts the right vector). -/
def coefR (s : PlayerState) : ℝ :=
  (if s.moveRight then 1 else 0) - (if s.moveLeft then 1 else 0)

/-- One input event feeding the player controller over a session. -/
inductive PlayerEvent where
  | frame (delta : ℝ)
  | mouseMove (dx : ℝ)
  | keyDown (k : KeyCode)
  | keyUp (k : KeyCode)
  | lockRequest (apiAvailable : Bool)
  | unlockRequest

/-- Dispatch one event to the controller. -/
def stepPlayer (s : PlayerState) : PlayerEvent → PlayerState
  | PlayerEvent.frame d => update s d
  | PlayerEvent.mouseMove dx => onMouseMove s dx
  | PlayerEvent.keyDown k => onKeyDown s k
  | PlayerEvent.keyUp k => onKeyUp s k
  | PlayerEvent.lockRequest b => (lock s b).2
  | PlayerEvent.unlockRequest => unlock s

/-- Player-controller states reachable from the constructor state by any
sequence of input events and frames. -/
inductive ReachablePlayer : PlayerState → Prop
  | init : ReachablePlayer initPlayer
  | step (s : PlayerState) (e : PlayerEvent) :
      ReachablePlayer s → ReachablePlayer (stepPlayer s e)

/-- Metadata of one artwork (`{ image, title, artist }` in the manifest). -/
structure ArtworkData where
  image : String
  title : String
  artist : String
deriving DecidableEq

/-- Observable state of one `Artwork` entity: its constructor arguments, the
transform computed by `createArtwork` (position and look-at target), the
hover flag, the current uniform group scale and frame emissive color, and
the constants `originalScale = 1` / `highlightScale = 1.05` stored by
`createArtwork`. -/
structure Artwork where
  data : ArtworkData
  index : ℕ
  total : ℕ
  radius : ℝ
  position : Vec3
  lookTarget : Vec3
  isHovered : Bool
  scale : ℝ
  emissive : ℕ
  originalScale : ℝ
  highlightScale : ℝ

/-- The `Artwork` constructor together with `createArtwork`: the entity `index`
of `total` is placed at `angle = (index / total) * PI * 2` on the circle of
the given radius, at `(sin(angle) * radius, 1.6, cos(angle) * radius)`,
looking at `(0, 1.6, 0)`; it starts un-hovered, at scale `1`, with the
default frame emissive color `0x000000`. -/
def mkArtwork (data : ArtworkData) (index total : ℕ) (radius : ℝ) : Artwork :=
  let angle : ℝ := ((index : ℝ) / (total : ℝ)) * Real.pi * 2
  { data := data
    index := index
    total := total
    radius := radius
    position := ⟨Real.sin angle * radius, 1.6, Real.cos angle * radius⟩
    lookTarget := ⟨0, 1.6, 0⟩
    isHovered := false
    scale := 1
    emissive := 0x000000
    originalScale := 1
    highlightScale := 1.05 }

/-- `Artwork.setHighlight(highlight)`: when turning on and not already
hovered, set the group scale to `highlightScale`, the frame emissive to
`0x333333` and the hover flag; when turning off and hovered, restore scale
`1` and emissive `0x000000`; otherwise mutate nothing. -/
def setHighlight (a : Artwork) (highlight : Bool) : Artwork :=
  if highlight && !a.isHovered then
    { a with scale := a.highlightScale, emissive := 0x333333, isHovered := true }
  else if !highlight && a.isHovered then
    { a with scale := 1, emissive := 0x000000, isHovered := false }
  else a

/-- The artwork manifest `ARTWORKS` of `main.js`. -/
def ARTWORKS : List ArtworkData :=
  [⟨"socrates.jpg", "The Death of Socrates", "Jacques-Louis David"⟩,
   ⟨"stars.jpg", "Starry Night", "Vincent Van Gogh"⟩,
   ⟨"wave.jpg", "The Great Wave off Kanagawa", "Katsushika Hokusai"⟩,
   ⟨"spring.jpg", "Effect of Spring, Giverny", "Claude Monet"⟩,
   ⟨"mountain.jpg", "Mount Corcoran", "Albert Bierstadt"⟩,
   ⟨"sunday.jpg", "A Sunday on La Grande Jatte", "George Seurat"⟩]

/-- `createArtworks()`: one entity per manifest entry, indexed in order, with
`total = ARTWORKS.length` and the default constructor radius `15`. -/
def initialArtworks : List Artwork :=
  ARTWORKS.enum.map (fun p => mkArtwork p.2 p.1 ARTWORKS.length 15)

/-- One entry of the sorted intersection list returned by
`raycaster.intersectObjects(scene.children, true)`, reduced to what the two
resolution passes inspect: the `userData.type` tag of the hit node, its
`userData.data` payload, and the group of which artwork entity (by index into
`state.artworks`) contains the node — the scene-graph fact that
the `find` of `onPointerMove` over the artwork groups recovers. -/
structure SceneNode where
  typeTag : Option String
  data : ArtworkData
  owner : Option ℕ

/-- The owning-entity lookup of `onPointerMove`:
`state.artworks.find` of the artwork whose group contains the hit
node, which yields the index of the containing group when that index denotes an entry
of the artworks list, and nothing otherwise. -/
def findOwner (artworks : List Artwork) (n : SceneNode) : Option ℕ :=
  match n.owner with
  | some i => if i < artworks.length then some i else none
  | none => none

/-- The intersection walk of `onPointerMove`: scan the sorted intersections
in order; at a node tagged artwork, look up the owning entity and stop
there when the lookup succeeds (the source `break`s only inside
`if (artwork)`), otherwise keep scanning. Returns the index of the entity
to highlight. -/
def hoverScan (artworks : List Artwork) : List SceneNode → Option ℕ
  | [] => none
  | n :: rest =>
    if n.typeTag = some "artwork" then
      match findOwner artworks n with
      | some i => some i
      | none => hoverScan artworks rest
    else hoverScan artworks rest

/-- The intersection walk of `handleArtworkClick`: scan the sorted
intersections in order and return the `userData.data` of the first node
tagged artwork (whose title and artist are then displayed). -/
def clickScan : List SceneNode → Option ArtworkData
  | [] => none
  | n :: rest =>
    if n.typeTag = some "artwork" then some n.data else clickScan rest

/-- The metadata of the entity the hover pass highlights: the data of the
artwork at the index `hoverScan` resolves. -/
def hoverTargetData (artworks : List Artwork) (intersects : List SceneNode) :
    Option ArtworkData :=
  (hoverScan artworks intersects).bind (fun i => (artworks[i]?).map Artwork.data)

/-- The full hover pass of `onPointerMove` over the artwork list: first reset
the highlight of every artwork, then highlight the single entity the scan
resolves (if any). -/
def hoverPass (artworks : List Artwork) (intersects : List SceneNode) :
    List Artwork :=
  let reset := artworks.map (fun a => setHighlight a false)
  match hoverScan reset intersects with
  | some i =>
    match reset[i]? with
    | some a => reset.set i (setHighlight a true)
    | none => reset
  | none => reset

/-- Number of artworks currently highlighted. -/
def countHighlighted (l : List Artwork) : ℕ :=
  l.countP (fun a => a.isHovered)

/-- One scene-level input event that can touch the artwork list: a
pointer-move (hover pass) or a click (which only reads, via `clickScan`,
and shows the info panel). -/
inductive GalleryEvent where
  | pointerMove (intersects : List SceneNode)
  | click (intersects : List SceneNode)

/-- Effect of one scene-level event on the artwork list. -/
def stepArtworks (s : List Artwork) : GalleryEvent → List Artwork
  | GalleryEvent.pointerMove il => hoverPass s il
  | GalleryEvent.click _ => s

/-- Artwork-list states reachable from `createArtworks()` by any sequence of
pointer-move and click events. -/
inductive ReachableArtworks : List Artwork → Prop
  | init : ReachableArtworks initialArtworks
  | step (s : List Artwork) (e : GalleryEvent) :
      ReachableArtworks s → ReachableArtworks (stepArtworks s e)

/-- Sample controller state: freshly constructed, locked, with only the
`moveLeft` flag set. -/
def sLeft : PlayerState :=
  { initPlayer with isLocked := true, moveLeft := true }

/-- Sample controller state: locked, with only the `moveForward` flag set. -/
def sFwd : PlayerState :=
  { initPlayer with isLocked := true, moveForward := true }

/-- Sample controller state: locked, moving diagonally (`moveForward` and
`moveRight` both set). -/
def sDiag : PlayerState :=
  { initPlayer with isLocked := true, moveForward := true, moveRight := true }

/-- Sample intersection entry: the pickable image plane of artwork entity 2
(`wave.jpg`), tagged artwork, contained in the group of entity 2. -/
def sampleHit : SceneNode :=
  ⟨some "artwork", ⟨"wave.jpg", "The Great Wave off Kanagawa", "Katsushika Hokusai"⟩,
   some 2⟩

/-! Helper lemmas about the vector algebra and the controller. -/

theorem Vec3.add_def (a b : Vec3) : a + b = ⟨a.x + b.x, a.y + b.y, a.z + b.z⟩ := rfl

theorem Vec3.sub_def (a b : Vec3) : a - b = ⟨a.x - b.x, a.y - b.y, a.z - b.z⟩ := rfl

theorem Vec3.normSq_smul (a : Vec3) (c : ℝ) : (a.smul c).normSq = c ^ 2 * a.normSq := by
  simp only [Vec3.smul, Vec3.normSq]
  ring

theorem Vec3.length_nonneg (a : Vec3) : 0 ≤ a.length := Real.sqrt_nonneg _

theorem Vec3.length_smul (a : Vec3) (c : ℝ) : (a.smul c).length = |c| * a.length := by
  simp only [Vec3.length, Vec3.normSq_smul]
  rw [Real.sqrt_mul (sq_nonneg c), Real.sqrt_sq_eq_abs]

theorem Vec3.normalize_length (a : Vec3) (h : a.length ≠ 0) :
    a.normalize.length = 1 := by
  simp only [Vec3.normalize, if_neg h, Vec3.length_smul]
  rw [abs_of_nonneg (one_div_nonneg.mpr a.length_nonneg)]
  field_simp

theorem Vec3.normalize_of_length_one (a : Vec3) (h : a.length = 1) :
    a.normalize = a := by
  simp only [Vec3.normalize, h, if_neg (one_ne_zero (α := ℝ))]
  ext <;> simp [Vec3.smul]

/-- The squared length of a yaw-direction vector is `1`. -/
theorem normSq_dir (t : ℝ) : (Vec3.mk (Real.sin t) 0 (Real.cos t)).normSq = 1 := by
  simp only [Vec3.normSq]
  linear_combination Real.sin_sq_add_cos_sq t

/-- The length of a yaw-direction vector is `1`. -/
theorem length_dir (t : ℝ) : (Vec3.mk (Real.sin t) 0 (Real.cos t)).length = 1 := by
  rw [Vec3.length, normSq_dir, Real.sqrt_one]

/-- `forwardVec`, with the redundant normalization of the unit direction
removed. -/
theorem forwardVec_eq (yaw : ℝ) :
    forwardVec yaw = ⟨Real.sin yaw, 0, Real.cos yaw⟩ :=
  Vec3.normalize_of_length_one _ (length_dir yaw)

/-- `rightVec`, rewritten through the angle-addition identities. -/
theorem rightVec_eq (yaw : ℝ) :
    rightVec yaw = ⟨Real.cos yaw, 0, -Real.sin yaw⟩ := by
  rw [rightVec, Vec3.normalize_of_length_one _ (length_dir _)]
  simp [Real.sin_add, Real.cos_add]

theorem forwardVec_length (yaw : ℝ) : (forwardVec yaw).length = 1 := by
  rw [forwardVec_eq]; exact length_dir yaw

theorem rightVec_length (yaw : ℝ) : (rightVec yaw).length = 1 := by
  rw [rightVec, Vec3.normalize_of_length_one _ (length_dir _)]
  exact length_dir _

/-- The accumulated raw velocity is the forward vector weighted by `coefF`
plus the right vector weighted by `coefR`. -/
theorem rawVelocity_eq (s : PlayerState) :
    rawVelocity s = (forwardVec s.yaw).smul (coefF s) + (rightVec s.yaw).smul (coefR s) := by
  simp only [rawVelocity, coefF, coefR]
  cases hf : s.moveForward <;> cases hb : s.moveBackward <;>
    cases hl : s.moveLeft <;> cases hr : s.moveRight <;>
    ext <;>
    simp [Vec3.add_def, Vec3.sub_def, Vec3.zero, Vec3.smul] <;> ring

/-- The squared length of the raw velocity is `coefF ^ 2 + coefR ^ 2`. -/
theorem normSq_rawVelocity (s : PlayerState) :
    (rawVelocity s).normSq = coefF s ^ 2 + coefR s ^ 2 := by
  rw [rawVelocity_eq, forwardVec_eq, rightVec_eq]
  simp only [Vec3.smul, Vec3.add_def, Vec3.normSq]
  linear_combination (coefF s ^ 2 + coefR s ^ 2) * Real.sin_sq_add_cos_sq s.yaw

theorem Vec3.add_sub_cancel_left (p w : Vec3) : (p + w) - p = w := by
  ext <;> simp [Vec3.add_def, Vec3.sub_def]

/-- `update` under the lock with a non-cancelling flag combination: the new
position adds the normalized raw velocity scaled by `moveSpeed`. -/
theorem update_locked_moving (s : PlayerState) (d : ℝ) (hL : s.isLocked = true)
    (hv : 0 < (rawVelocity s).normSq) :
    (update s d).position = s.position + ((rawVelocity s).normalize).smul s.moveSpeed := by
  simp [update, hL, hv]

/-- With only the `moveLeft` flag set, one locked frame subtracts the right
vector scaled by `moveSpeed` from the camera position. -/
theorem update_moveLeft_only (s : PlayerState) (d : ℝ) (hL : s.isLocked = true)
    (hF : s.moveForward = false) (hB : s.moveBackward = false)
    (hMl : s.moveLeft = true) (hMr : s.moveRight = false) :
    (update s d).position = s.position - (rightVec s.yaw).smul s.moveSpeed := by
  have hcf : coefF s = 0 := by simp [coefF, hF, hB]
  have hcr : coefR s = -1 := by simp [coefR, hMl, hMr]
  have hns : (rawVelocity s).normSq = 1 := by
    rw [normSq_rawVelocity, hcf, hcr]; norm_num
  have hv : 0 < (rawVelocity s).normSq := by rw [hns]; norm_num
  have hlen : (rawVelocity s).length = 1 := by
    simp only [Vec3.length]; rw [hns, Real.sqrt_one]
  rw [update_locked_moving s d hL hv, Vec3.normalize_of_length_one _ hlen,
    rawVelocity_eq, hcf, hcr]
  ext <;> simp [forwardVec_eq, rightVec_eq, Vec3.smul, Vec3.add_def, Vec3.sub_def]
  ring

theorem rawVelocity_y (s : PlayerState) : (rawVelocity s).y = 0 := by
  rw [rawVelocity_eq]
  simp [forwardVec_eq, rightVec_eq, Vec3.smul, Vec3.add_def]

theorem update_position_y (s : PlayerState) (d : ℝ) :
    (update s d).position.y = s.position.y := by
  cases hL : s.isLocked with
  | false => simp [update, hL]
  | true =>
    by_cases hv : 0 < (rawVelocity s).normSq
    · rw [update_locked_moving s d hL hv]
      simp [Vec3.add_def, Vec3.normalize, Vec3.smul, rawVelocity_y]
    · simp [update, hL, hv]

/-! Claim theorems. -/

/-- C2 counterexample: in a freshly-constructed, locked controller with only
the `moveLeft` flag set (and yaw `0`), one frame of integration does *not*
add the right vector scaled by the speed to the camera position — the claim
fails at this concrete input. -/
theorem c2_moveleft_adds_right_counterexample :
    (update sLeft 1).position ≠
      sLeft.position + (rightVec sLeft.yaw).smul sLeft.moveSpeed := by
  intro hcontra
  rw [update_moveLeft_only sLeft 1 rfl rfl rfl rfl rfl] at hcontra
  have hx := congrArg Vec3.x hcontra
  simp [Vec3.add_def, Vec3.sub_def, Vec3.smul, rightVec_eq, sLeft, initPlayer,
    Real.cos_zero] at hx
  norm_num at hx

/-- C2 (amended): for every facing direction and speed, when only the
`moveLeft` flag is set the per-frame integration *subtracts* the right
vector (facing rotated +90°) scaled by the speed from the camera position;
the left/right swap is in the key bindings (the left keys set `moveRight`),
not in the flag-to-vector mapping. -/
theorem c2_moveleft_subtracts_right (s : PlayerState) (d : ℝ)
    (hL : s.isLocked = true) (hF : s.moveForward = false)
    (hB : s.moveBackward = false) (hMl : s.moveLeft = true)
    (hMr : s.moveRight = false) :
    (update s d).position = s.position - (rightVec s.yaw).smul s.moveSpeed :=
  update_moveLeft_only s d hL hF hB hMl hMr

/-- Witness for the amended C2 at the concrete locked moveLeft-only state. -/
theorem c2_moveleft_subtracts_right_witness :
    (update sLeft 1).position =
      sLeft.position - (rightVec sLeft.yaw).smul sLeft.moveSpeed :=
  c2_moveleft_subtracts_right sLeft 1 rfl rfl rfl rfl rfl

/-- C3: whenever the movement flags do not cancel out, the per-frame
displacement has length exactly `moveSpeed` (diagonal movement is
normalized), and with only `moveForward` set the displacement is the unit
facing vector scaled by `moveSpeed`. -/
theorem c3_displacement_magnitude (s : PlayerState) (d : ℝ)
    (hL : s.isLocked = true) (hsp : 0 ≤ s.moveSpeed)
    (hnc : ¬(coefF s = 0 ∧ coefR s = 0)) :
    ((update s d).position - s.position).length = s.moveSpeed ∧
    (s.moveForward = true → s.moveBackward = false → s.moveLeft = false →
      s.moveRight = false →
      (update s d).position - s.position = (forwardVec s.yaw).smul s.moveSpeed) := by
  have hv : 0 < (rawVelocity s).normSq := by
    rw [normSq_rawVelocity]
    rcases not_and_or.mp hnc with h | h
    · have h1 : 0 < |coefF s| ^ 2 := pow_pos (abs_pos.mpr h) 2
      rw [sq_abs] at h1
      nlinarith [sq_nonneg (coefR s)]
    · have h1 : 0 < |coefR s| ^ 2 := pow_pos (abs_pos.mpr h) 2
      rw [sq_abs] at h1
      nlinarith [sq_nonneg (coefF s)]
  have hdisp : (update s d).position - s.position =
      ((rawVelocity s).normalize).smul s.moveSpeed := by
    rw [update_locked_moving s d hL hv, Vec3.add_sub_cancel_left]
  have hlen : (rawVelocity s).length ≠ 0 := by
    simp only [Vec3.length]
    exact ne_of_gt (Real.sqrt_pos.mpr hv)
  constructor
  · rw [hdisp, Vec3.length_smul, Vec3.normalize_length _ hlen, mul_one,
      abs_of_nonneg hsp]
  · intro hF hB hMl hMr
    have hcf : coefF s = 1 := by simp [coefF, hF, hB]
    have hcr : coefR s = 0 := by simp [coefR, hMl, hMr]
    have hvel : rawVelocity s = forwardVec s.yaw := by
      rw [rawVelocity_eq, hcf, hcr]
      ext <;> simp [Vec3.smul, Vec3.add_def]
    rw [hdisp, hvel, Vec3.normalize_of_length_one _ (forwardVec_length s.yaw)]

/-- Witness for C3 at the concrete locked diagonal state: the displacement
magnitude equals `moveSpeed`, not `moveSpeed * sqrt 2`. -/
theorem c3_displacement_magnitude_witness :
    ((update sDiag 1).position - sDiag.position).length = sDiag.moveSpeed :=
  (c3_displacement_magnitude sDiag 1 rfl (by norm_num [sDiag, initPlayer])
    (by norm_num [coefF, coefR, sDiag, initPlayer])).1

/-- C7: while locked, applying a horizontal pointer delta `+d` and then `-d`
restores the controller state — in particular the yaw — exactly. -/
theorem c7_pointer_delta_reversible (s : PlayerState) (d : ℝ)
    (h : s.isLocked = true) :
    onMouseMove (onMouseMove s d) (-d) = s := by
  cases s with
  | mk pos yaw mf mb ml mr lk ms rs =>
    simp only at h
    subst h
    simp [onMouseMove]

/-- Witness for C7 at a concrete locked state and delta. -/
theorem c7_pointer_delta_reversible_witness :
    onMouseMove (onMouseMove sLeft 5) (-5) = sLeft :=
  c7_pointer_delta_reversible sLeft 5 rfl

/-- C8: while unlocked, a frame update is a complete no-op (camera position
and yaw included) for every delta and flag combination, and a pointer-move
event is ignored entirely. -/
theorem c8_unlocked_noop (s : PlayerState) (d dx : ℝ)
    (h : s.isLocked = false) :
    update s d = s ∧ onMouseMove s dx = s := by
  constructor <;> simp [update, onMouseMove, h]

/-- Witness for C8 at the unlocked constructor state. -/
theorem c8_unlocked_noop_witness :
    update initPlayer 1 = initPlayer ∧ onMouseMove initPlayer 3 = initPlayer :=
  c8_unlocked_noop initPlayer 1 3 rfl

/-- C9: when the pointer-capture request API is unavailable, `lock()` rejects
with the capability-unavailable error and mutates nothing — the state stays
`Unlocked`. -/
theorem c9_lock_unsupported (s : PlayerState) (h : s.isLocked = false) :
    lock s false = (LockOutcome.rejected "Pointer Lock API not supported", s) ∧
    (lock s false).2.isLocked = false := by
  constructor <;> simp [lock, h]

/-- Witness for C9 at the unlocked constructor state. -/
theorem c9_lock_unsupported_witness :
    lock initPlayer false =
      (LockOutcome.rejected "Pointer Lock API not supported", initPlayer) ∧
    (lock initPlayer false).2.isLocked = false :=
  c9_lock_unsupported initPlayer rfl

/-- C10: every frame update preserves the camera `y` coordinate, because
the forward and right movement vectors have zero vertical component; hence
over any session reachable from the constructor state the eye height stays
at its initial value `1.6`. -/
theorem c10_eye_height_invariant :
    (∀ (s : PlayerState) (d : ℝ), (update s d).position.y = s.position.y) ∧
    (∀ yaw : ℝ, (forwardVec yaw).y = 0 ∧ (rightVec yaw).y = 0) ∧
    (∀ s : PlayerState, ReachablePlayer s → s.position.y = 1.6) := by
  refine ⟨update_position_y, fun yaw => ?_, fun s hs => ?_⟩
  · constructor <;> simp [forwardVec_eq, rightVec_eq]
  · induction hs with
    | init => norm_num [initPlayer]
    | step s e _ ih =>
      cases e with
      | frame d => rw [stepPlayer, update_position_y]; exact ih
      | mouseMove dx =>
        cases hL : s.isLocked <;> simp [stepPlayer, onMouseMove, hL, ih]
      | keyDown k => cases k <;> simp [stepPlayer, onKeyDown, ih]
      | keyUp k => cases k <;> simp [stepPlayer, onKeyUp, ih]
      | lockRequest b => cases b <;> simp [stepPlayer, lock, ih]
      | unlockRequest => simp [stepPlayer, unlock, ih]

/-- Witness for C10: the constructor state is reachable and has eye height
`1.6`. -/
theorem c10_eye_height_invariant_witness : initPlayer.position.y = 1.6 :=
  c10_eye_height_invariant.2.2 initPlayer ReachablePlayer.init

/-- C1: every artwork entity `i` of `n` is placed at angle
`(i / n) * 2 * PI` on the circle of radius `r`, at position
`(sin(angle) * r, 1.6, cos(angle) * r)`, looking at the center at the same
height; concretely, for `n = 6`, `r = 15`, entity 0 sits at `(0, 1.6, 15)`
and entity 3 at `(0, 1.6, -15)`. -/
theorem c1_circular_placement (data : ArtworkData) (i n : ℕ) (r : ℝ)
    (_hn : 0 < n) (_hi : i < n) :
    (mkArtwork data i n r).position =
      ⟨Real.sin (((i : ℝ) / (n : ℝ)) * Real.pi * 2) * r, 1.6,
        Real.cos (((i : ℝ) / (n : ℝ)) * Real.pi * 2) * r⟩ ∧
    (mkArtwork data i n r).lookTarget = ⟨0, 1.6, 0⟩ ∧
    (mkArtwork data 0 6 15).position = ⟨0, 1.6, 15⟩ ∧
    (mkArtwork data 3 6 15).position = ⟨0, 1.6, -15⟩ := by
  refine ⟨rfl, rfl, ?_, ?_⟩
  · have h0 : (((0 : ℕ) : ℝ) / ((6 : ℕ) : ℝ)) * Real.pi * 2 = 0 := by norm_num
    simp [mkArtwork, h0]
  · have h3 : (3 : ℝ) / 6 * Real.pi * 2 = Real.pi := by ring
    simp [mkArtwork, h3, Real.sin_pi, Real.cos_pi]

/-- Witness for C1 at the first manifest entry, `i = 0`, `n = 6`, `r = 15`. -/
theorem c1_circular_placement_witness :
    (mkArtwork ⟨"socrates.jpg", "The Death of Socrates", "Jacques-Louis David"⟩
        0 6 15).position =
      ⟨Real.sin ((((0 : ℕ) : ℝ) / ((6 : ℕ) : ℝ)) * Real.pi * 2) * 15, 1.6,
        Real.cos ((((0 : ℕ) : ℝ) / ((6 : ℕ) : ℝ)) * Real.pi * 2) * 15⟩ ∧
    (mkArtwork ⟨"socrates.jpg", "The Death of Socrates", "Jacques-Louis David"⟩
        0 6 15).lookTarget = ⟨0, 1.6, 0⟩ ∧
    (mkArtwork ⟨"socrates.jpg", "The Death of Socrates", "Jacques-Louis David"⟩
        0 6 15).position = ⟨0, 1.6, 15⟩ ∧
    (mkArtwork ⟨"socrates.jpg", "The Death of Socrates", "Jacques-Louis David"⟩
        3 6 15).position = ⟨0, 1.6, -15⟩ :=
  c1_circular_placement _ 0 6 15 (by norm_num) (by norm_num)

/-- C6: `setHighlight` is idempotent — the second call with the same flag
changes neither the scale, the emissive color nor the hover flag. -/
theorem c6_setHighlight_idempotent (a : Artwork) (flag : Bool) :
    setHighlight (setHighlight a flag) flag = setHighlight a flag := by
  cases flag <;> cases hh : a.isHovered <;> simp [setHighlight, hh]

/-- C4: over a well-formed scene — every node tagged artwork lies in the
group of an artwork entity of the registry and carries the data of that
entity —
the hover pass and the click pass resolve the same entity (or both none)
from the same sorted intersection list, itself cast through the same
normalized device coordinate. -/
theorem c4_hover_click_agree (artworks : List Artwork)
    (intersects : List SceneNode)
    (hwf : ∀ nd ∈ intersects, nd.typeTag = some "artwork" →
      ∃ i a, nd.owner = some i ∧ artworks[i]? = some a ∧ a.data = nd.data) :
    hoverTargetData artworks intersects = clickScan intersects := by
  induction intersects with
  | nil => rfl
  | cons nd rest ih =>
    by_cases htag : nd.typeTag = some "artwork"
    · obtain ⟨i, a, howner, hget, hdata⟩ :=
        hwf nd (List.mem_cons_self nd rest) htag

      have hlt : i < artworks.length := by
        by_contra hge
        rw [List.getElem?_eq_none (Nat.le_of_not_lt hge)] at hget
        exact Option.noConfusion hget
      have hscan : hoverScan artworks (nd :: rest) = some i := by
        simp [hoverScan, htag, findOwner, howner, hlt]
      simp [hoverTargetData, hscan, clickScan, htag, hget, hdata]
    · have h1 : hoverScan artworks (nd :: rest) = hoverScan artworks rest := by
        simp [hoverScan, htag]
      have h2 : clickScan (nd :: rest) = clickScan rest := by
        simp [clickScan, htag]
      rw [hoverTargetData, h1, h2]
      exact ih (fun m hm ht => hwf m (List.mem_cons_of_mem nd hm) ht)

/-- Witness for C4: over the startup scene, an intersection list whose first
hit is the tagged image plane of entity 2 resolves to the same entity in both
passes. -/
theorem c4_hover_click_agree_witness :
    hoverTargetData initialArtworks [sampleHit] = clickScan [sampleHit] :=
  c4_hover_click_agree initialArtworks [sampleHit] (by
    intro nd hnd htag
    rw [List.mem_singleton] at hnd
    subst hnd
    exact ⟨2, mkArtwork sampleHit.data 2 6 15, rfl, rfl, rfl⟩)

theorem setHighlight_false_isHovered (a : Artwork) :
    (setHighlight a false).isHovered = false := by
  cases hh : a.isHovered <;> simp [setHighlight, hh]

theorem countHighlighted_reset (l : List Artwork) :
    countHighlighted (l.map fun a => setHighlight a false) = 0 := by
  refine List.countP_eq_zero.mpr ?_
  intro a ha
  obtain ⟨b, _, rfl⟩ := List.mem_map.mp ha
  simp [setHighlight_false_isHovered]

theorem countP_set_le {α : Type} (p : α → Bool) (l : List α) (i : ℕ) (b : α) :
    (l.set i b).countP p ≤ l.countP p + 1 := by
  induction l generalizing i with
  | nil => simp
  | cons a t ih =>
    cases i with
    | zero =>
      simp only [List.set, List.countP_cons]
      have := t.countP_le_length p
      split <;> split <;> omega
    | succ j =>
      simp only [List.set, List.countP_cons]
      have := ih j
      omega

/-- A single hover pass leaves at most one artwork highlighted, whatever the
previous highlight state was. -/
theorem countHighlighted_hoverPass (s : List Artwork) (il : List SceneNode) :
    countHighlighted (hoverPass s il) ≤ 1 := by
  have hr : countHighlighted (s.map fun a => setHighlight a false) = 0 :=
    countHighlighted_reset s
  simp only [hoverPass]
  split
  · split
    · calc countHighlighted ((s.map fun a => setHighlight a false).set _ _)
          ≤ countHighlighted (s.map fun a => setHighlight a false) + 1 :=
            countP_set_le _ _ _ _
        _ = 1 := by omega
    · omega
  · omega

/-- C5: in every artwork-list state reachable from startup by pointer-move
and click events, at most one artwork is highlighted: each hover pass first
resets every highlight and then highlights at most the single first-hit
entity. -/
theorem c5_at_most_one_highlight (s : List Artwork)
    (hs : ReachableArtworks s) : countHighlighted s ≤ 1 := by
  induction hs with
  | init =>
    have h0 : countHighlighted initialArtworks = 0 := by
      refine List.countP_eq_zero.mpr ?_
      intro a ha
      obtain ⟨p, _, rfl⟩ := List.mem_map.mp ha
      simp [mkArtwork]
    omega
  | step s e hprev ih =>
    cases e with
    | pointerMove il => exact countHighlighted_hoverPass s il
    | click il => exact ih

/-- Witness for C5: the startup artwork list is reachable and satisfies the
invariant. -/
theorem c5_at_most_one_highlight_witness : countHighlighted initialArtworks ≤ 1 :=
  c5_at_most_one_highlight initialArtworks ReachableArtworks.init

end

end Gallery
